import Mathlib

/-!
Verification of the yab command-line client entry point (main.go).

The file embeds the functions of main.go — getMethodSpec, getRequest,
makeRequest, runWithOptions, fromPositional — as pure Lean functions.
Collaborators declared outside main.go (the thrift parser and codec,
transport construction, the synthetic health spec, JSON marshalling,
the OS file-existence check, and the network call itself) are abstract
functions gathered in an environment record, and the observable actions
of runWithOptions are recorded as an event trace.
-/

set_option maxHeartbeats 1000000

namespace Yab

/-- Abstract handle for a resolved Thrift function spec
(thriftrw compile.FunctionSpec in the source). -/
structure FunctionSpec where
  id : Nat
  deriving DecidableEq, Repr

/-- Abstract handle for a parsed Thrift module (the result of thrift.Parse). -/
structure ParsedModule where
  id : Nat
  deriving DecidableEq, Repr

/-- Abstract handle for a service spec found inside a parsed module. -/
structure ServiceSpec where
  id : Nat
  deriving DecidableEq, Repr

/-- Abstract handle for a constructed transport (transport.Transport). -/
structure Transport where
  id : Nat
  deriving DecidableEq, Repr

/-- Abstract handle for the parsed request input (result of getRequestInput). -/
structure RequestInput where
  id : Nat
  deriving DecidableEq, Repr

/-- Abstract handle for the decoded response map
(result of thrift.ResponseBytesToMap). -/
structure ResponseMap where
  id : Nat
  deriving DecidableEq, Repr

/-- transport.Request as built in getRequest: a method name and a body. -/
structure Request where
  Method : String
  Body : List Nat
  deriving DecidableEq, Repr

/-- transport.Response as consumed in runWithOptions: only the Body is used. -/
structure Response where
  Body : List Nat
  deriving DecidableEq, Repr

/-- The request options group, with the fields main.go reads and writes
(the struct itself is declared outside the given source file). -/
structure RequestOptions where
  MethodName : String
  ThriftFile : String
  RequestJSON : String
  Health : Bool
  deriving DecidableEq, Repr

/-- The transport options group; main.go only threads it through to
getTransport. -/
structure TransportOptions where
  ServiceName : String
  deriving DecidableEq, Repr

/-- Top-level options: the request group and the transport group. -/
structure Options where
  ROpts : RequestOptions
  TOpts : TransportOptions
  deriving DecidableEq, Repr

/-- One second in nanoseconds (Go time.Second), the per-call deadline
passed to tchannel.NewContext in makeRequest. -/
def timeSecond : Nat := 1000000000

/-- A context carrying a timeout, modelling the tchannel context created
by tchannel.NewContext(timeout) in makeRequest. -/
structure Context where
  timeout : Nat
  deriving DecidableEq, Repr

/-- The observable actions of runWithOptions, in order: a fatal report to
the output sink (which, per the output-sink contract, terminates the run),
context creation, the transport call, context cancellation, normal
printing, and entry into the benchmark phase. -/
inductive Event where
  | fatalf (msg : String)
  | newContext (timeout : Nat)
  | transportCall (ctx : Context) (req : Request)
  | cancelContext
  | printf (s : String)
  | benchmark (method : FunctionSpec) (req : Request)
  deriving DecidableEq, Repr

/-- Modelled from the spec: the collaborators of main.go that are declared
outside the given source file — the OS file-existence check behind
isFileMissing, thrift.Parse, thrift.SplitMethod, findService, findMethod,
getHealthSpec (a fixed name and spec, per the synthetic health descriptor
section), getTransport, getRequestInput, thrift.RequestToBytes, the
Call operation of a transport, thrift.ResponseBytesToMap, and
json.MarshalIndent with its prefix and indent arguments. Each is an
abstract function; the spec treats them as external collaborators that
produce or consume plain data. -/
structure Env where
  isFileMissing : String → Bool
  parseThrift : String → Except String ParsedModule
  splitMethod : String → Except String (String × String)
  findService : ParsedModule → String → Except String ServiceSpec
  findMethod : ServiceSpec → String → Except String FunctionSpec
  healthName : String
  healthSpec : FunctionSpec
  getTransport : TransportOptions → Except String Transport
  getRequestInput : RequestOptions → Except String RequestInput
  requestToBytes : FunctionSpec → RequestInput → Except String (List Nat)
  call : Transport → Context → Request → Except String Response
  responseBytesToMap : FunctionSpec → List Nat → Except String ResponseMap
  marshalIndent : ResponseMap → String → String → Except String String
  formatMap : ResponseMap → String

/-- The fixed error value errHealthAndMethod of main.go. -/
def errHealthAndMethod : String := "cannot specify method name and use --health"

/-- Escape one character the way Go fmt %q (strconv.Quote) does for
printable ASCII. -/
def goQuoteChar (c : Char) : String :=
  if c = '\\' then "\\\\"
  else if c = '"' then "\\\""
  else String.singleton c

/-- Go fmt %q of a string: double quotes around the escaped characters
(modelled for printable ASCII input). -/
def goQuote (s : String) : String :=
  "\"" ++ String.join (s.data.map goQuoteChar) ++ "\""

/-- getMethodSpec from main.go. Go mutates the options through a pointer;
here the final RequestOptions value is returned alongside the result, so
the error branches return the options unchanged. -/
def getMethodSpec (env : Env) (opts : RequestOptions) :
    Except String FunctionSpec × RequestOptions :=
  if opts.Health then
    if opts.MethodName ≠ "" then
      (.error errHealthAndMethod, opts)
    else
      (.ok env.healthSpec, { opts with MethodName := env.healthName })
  else if opts.ThriftFile = "" then
    (.error "specify a Thrift file using --thrift", opts)
  else if env.isFileMissing opts.ThriftFile then
    (.error ("cannot find Thrift file: " ++ goQuote opts.ThriftFile), opts)
  else
    match env.parseThrift opts.ThriftFile with
    | .error err => (.error ("could not parse Thrift file: " ++ err), opts)
    | .ok parsed =>
      match env.splitMethod opts.MethodName with
      | .error err => (.error err, opts)
      | .ok (thriftSvc, thriftMethod) =>
        match env.findService parsed thriftSvc with
        | .error err => (.error err, opts)
        | .ok service =>
          match env.findMethod service thriftMethod with
          | .error err => (.error err, opts)
          | .ok method => (.ok method, opts)

/-- getRequest from main.go: parse the request input, encode it against
the method spec, and build the transport.Request. -/
def getRequest (env : Env) (opts : RequestOptions) (method : FunctionSpec) :
    Except String Request :=
  match env.getRequestInput opts with
  | .error err => .error err
  | .ok reqInput =>
    match env.requestToBytes method reqInput with
    | .error err => .error err
    | .ok requestBytes => .ok { Method := opts.MethodName, Body := requestBytes }

/-- makeRequest from main.go: create a context with a one-second timeout,
invoke the Call operation of the transport under it, and cancel the
context on return. The second component is the trace of those actions. -/
def makeRequest (env : Env) (t : Transport) (request : Request) :
    Except String Response × List Event :=
  let ctx : Context := { timeout := timeSecond }
  (env.call t ctx request,
    [.newContext timeSecond, .transportCall ctx request, .cancelContext])

/-- runWithOptions from main.go, as the trace of its observable actions.
A Fatalf on the output sink terminates the run (per the output-sink
contract: fatal-report-and-terminate), so each error branch ends the
trace. The options value passed to getRequest is the one returned by
getMethodSpec, matching the pointer mutation in the source. -/
def runWithOptions (env : Env) (opts : Options) : List Event :=
  match getMethodSpec env opts.ROpts with
  | (.error err, _) => [.fatalf ("Failed while parsing input: " ++ err ++ "\n")]
  | (.ok method, ropts) =>
    match env.getTransport opts.TOpts with
    | .error err => [.fatalf ("Failed while parsing options: " ++ err ++ "\n")]
    | .ok t =>
      match getRequest env ropts method with
      | .error err =>
        [.fatalf ("Failed while parsing request input: " ++ err ++ "\n")]
      | .ok req =>
        let r := makeRequest env t req
        r.2 ++
          match r.1 with
          | .error err => [.fatalf ("Failed while making call: " ++ err ++ "\n")]
          | .ok response =>
            match env.responseBytesToMap method response.Body with
            | .error err =>
              [.fatalf ("Failed while parsing response: " ++ err ++ "\n")]
            | .ok responseMap =>
              match env.marshalIndent responseMap "" "  " with
              | .error err =>
                [.fatalf ("Failed to convert map to JSON: " ++ err ++ "\nMap: " ++
                  env.formatMap responseMap ++ "\n")]
              | .ok bs => [.printf (bs ++ "\n\n"), .benchmark method req]

/-- fromPositional from main.go: copy args[index] into the target only
when the index is in bounds, the argument is non-empty and the target is
still empty. The index is a Nat, matching the non-negative constant
indices used at the call sites. -/
def fromPositional (args : List String) (index : Nat) (s : String) : String :=
  if h : args.length ≤ index then s
  else
    let a := args.get ⟨index, Nat.lt_of_not_le h⟩
    if a ≠ "" ∧ s = "" then a else s

/-- An environment in which every collaborator succeeds, used to evaluate
the theorems on concrete inputs. -/
def okEnv : Env where
  isFileMissing := fun _ => false
  parseThrift := fun _ => .ok { id := 0 }
  splitMethod := fun s => .ok (s, s)
  findService := fun _ _ => .ok { id := 0 }
  findMethod := fun _ _ => .ok { id := 7 }
  healthName := "Meta::health"
  healthSpec := { id := 1 }
  getTransport := fun _ => .ok { id := 0 }
  getRequestInput := fun _ => .ok { id := 0 }
  requestToBytes := fun _ _ => .ok [1, 2, 3]
  call := fun _ _ _ => .ok { Body := [4, 5] }
  responseBytesToMap := fun _ _ => .ok { id := 0 }
  marshalIndent := fun _ _ _ => .ok "response"
  formatMap := fun _ => "map"

/-- Like okEnv but the Thrift file is reported missing by the OS. -/
def missingFileEnv : Env :=
  { okEnv with isFileMissing := fun _ => true }

/-- Like okEnv but the marshalled response body is a different string. -/
def prettyEnv : Env :=
  { okEnv with marshalIndent := fun _ _ _ => .ok "pretty" }

/-- Concrete request options for a plain (non-health) invocation. -/
def sampleROpts : RequestOptions :=
  { MethodName := "Simple::foo", ThriftFile := "simple.thrift",
    RequestJSON := "", Health := false }

/-- Concrete top-level options for a plain (non-health) invocation. -/
def sampleOpts : Options :=
  { ROpts := sampleROpts, TOpts := { ServiceName := "svc" } }

/-- Concrete request options asking for a health probe, with no method. -/
def healthROpts : RequestOptions :=
  { MethodName := "", ThriftFile := "", RequestJSON := "", Health := true }

/-- Concrete top-level options asking for a health probe. -/
def healthOpts : Options :=
  { ROpts := healthROpts, TOpts := { ServiceName := "svc" } }

/-- Concrete request options combining the health flag with a method name. -/
def healthBadROpts : RequestOptions :=
  { MethodName := "foo", ThriftFile := "", RequestJSON := "", Health := true }

/-- Concrete top-level options combining the health flag with a method. -/
def healthBadOpts : Options :=
  { ROpts := healthBadROpts, TOpts := { ServiceName := "svc" } }

/-- The options value returned by getMethodSpec: the method name is set
to the synthetic health name exactly on the successful health path, and
every other path leaves the options unchanged. -/
theorem getMethodSpec_snd (env : Env) (opts : RequestOptions) :
    (getMethodSpec env opts).2 =
      if opts.Health = true ∧ opts.MethodName = "" then
        { opts with MethodName := env.healthName }
      else opts := by
  unfold getMethodSpec
  split
  next hh =>
    split
    next hm => simp [hh, hm]
    next hm => simp [hh, not_not.mp hm]
  next hh =>
    simp only [Bool.not_eq_true] at hh
    have hcond : ¬(opts.Health = true ∧ opts.MethodName = "") := by simp [hh]
    rw [if_neg hcond]
    split
    · rfl
    · split
      · rfl
      · split
        · rfl
        · split
          · rfl
          · split
            · rfl
            · split <;> rfl

/-- A successful getRequest yields a request whose Method field is the
method name of the options it was given. -/
theorem getRequest_ok (env : Env) (opts : RequestOptions) (method : FunctionSpec)
    (req : Request) (h : getRequest env opts method = .ok req) :
    ∃ bytes, req = { Method := opts.MethodName, Body := bytes } := by
  cases h1 : env.getRequestInput opts with
  | error e => simp [getRequest, h1] at h
  | ok ri =>
    cases h2 : env.requestToBytes method ri with
    | error e => simp [getRequest, h1, h2] at h
    | ok bytes =>
      simp only [getRequest, h1, h2] at h
      injection h with h3
      exact ⟨bytes, h3.symm⟩

/-- Position of a transport-call event in a list of the form produced by
runWithOptions: when neither the head nor the tail past the cancellation
holds a transport call, a transport call found anywhere in the list is
the one at the second position. -/
theorem call_event_position (e1 : Event) (ctx0 : Context) (req0 : Request)
    (rest pre post : List Event) (ctx : Context) (req : Request)
    (hrest : ∀ c q, ¬ Event.transportCall c q ∈ rest)
    (he1 : ∀ c q, e1 ≠ Event.transportCall c q)
    (h : e1 :: Event.transportCall ctx0 req0 :: Event.cancelContext :: rest =
        pre ++ Event.transportCall ctx req :: post) :
    ctx = ctx0 ∧ req = req0 ∧ pre = [e1] ∧ post = Event.cancelContext :: rest := by
  rcases pre with _ | ⟨a, pre⟩
  · rw [List.nil_append] at h
    obtain ⟨h1, -⟩ := List.cons_eq_cons.mp h
    exact absurd h1 (he1 ctx req)
  · simp only [List.cons_append] at h
    obtain ⟨h1, h2⟩ := List.cons_eq_cons.mp h
    rcases pre with _ | ⟨b, pre⟩
    · rw [List.nil_append] at h2
      obtain ⟨h3, h4⟩ := List.cons_eq_cons.mp h2
      injection h3 with hc hq
      exact ⟨hc.symm, hq.symm, by rw [h1], h4.symm⟩
    · simp only [List.cons_append] at h2
      obtain ⟨-, h4⟩ := List.cons_eq_cons.mp h2
      rcases pre with _ | ⟨c, pre⟩
      · rw [List.nil_append] at h4
        obtain ⟨h5, -⟩ := List.cons_eq_cons.mp h4
        simp at h5
      · simp only [List.cons_append] at h4
        obtain ⟨-, h6⟩ := List.cons_eq_cons.mp h4
        have hmem : Event.transportCall ctx req ∈ rest := by
          rw [h6]
          exact List.mem_append_right _ (List.mem_cons_self _ _)
        exact absurd hmem (hrest ctx req)

/-- Every trace of runWithOptions has one of three shapes: a single fatal
report; context creation, the transport call and cancellation followed by
a fatal report; or that call prefix followed by a print and the benchmark
phase. In the latter two the call context carries the one-second timeout
and the request carries the method name left in the options by
getMethodSpec. -/
theorem runWithOptions_trace_shape (env : Env) (opts : Options) :
    (∃ m, runWithOptions env opts = [Event.fatalf m]) ∨
    (∃ bytes rest,
      runWithOptions env opts =
        Event.newContext timeSecond ::
          Event.transportCall { timeout := timeSecond }
            { Method := ((getMethodSpec env opts.ROpts).2).MethodName, Body := bytes } ::
          Event.cancelContext :: rest ∧
      ((∃ m, rest = [Event.fatalf m]) ∨
        ∃ s method r, rest = [Event.printf s, Event.benchmark method r])) := by
  rcases hms : getMethodSpec env opts.ROpts with ⟨mres, ropts⟩
  cases mres with
  | error e =>
    exact Or.inl ⟨"Failed while parsing input: " ++ e ++ "\n",
      by simp [runWithOptions, hms]⟩
  | ok method =>
    cases ht : env.getTransport opts.TOpts with
    | error e =>
      exact Or.inl ⟨"Failed while parsing options: " ++ e ++ "\n",
        by simp [runWithOptions, hms, ht]⟩
    | ok t =>
      cases hr : getRequest env ropts method with
      | error e =>
        exact Or.inl ⟨"Failed while parsing request input: " ++ e ++ "\n",
          by simp [runWithOptions, hms, ht, hr]⟩
      | ok req =>
        obtain ⟨bytes, rfl⟩ := getRequest_ok env ropts method req hr
        refine Or.inr ⟨bytes, ?_⟩
        cases hc : env.call t { timeout := timeSecond }
            { Method := ropts.MethodName, Body := bytes } with
        | error e =>
          exact ⟨[Event.fatalf ("Failed while making call: " ++ e ++ "\n")],
            by simp [runWithOptions, makeRequest, hms, ht, hr, hc], Or.inl ⟨_, rfl⟩⟩
        | ok resp =>
          cases hd : env.responseBytesToMap method resp.Body with
          | error e =>
            exact ⟨[Event.fatalf ("Failed while parsing response: " ++ e ++ "\n")],
              by simp [runWithOptions, makeRequest, hms, ht, hr, hc, hd], Or.inl ⟨_, rfl⟩⟩
          | ok rmap =>
            cases hj : env.marshalIndent rmap "" "  " with
            | error e =>
              exact ⟨[Event.fatalf ("Failed to convert map to JSON: " ++ e ++ "\nMap: " ++
                  env.formatMap rmap ++ "\n")],
                by simp [runWithOptions, makeRequest, hms, ht, hr, hc, hd, hj],
                Or.inl ⟨_, rfl⟩⟩
            | ok bs =>
              exact ⟨[Event.printf (bs ++ "\n\n"),
                  Event.benchmark method { Method := ropts.MethodName, Body := bytes }],
                by simp [runWithOptions, makeRequest, hms, ht, hr, hc, hd, hj],
                Or.inr ⟨_, _, _, rfl⟩⟩

/-- Inversion for the transport-call event: wherever a transport call
appears in a runWithOptions trace, the context carries the one-second
timeout, the call is immediately preceded by the context creation and
immediately followed by the cancellation, and the request carries the
method name left in the options by getMethodSpec. -/
theorem runWithOptions_call_inversion (env : Env) (opts : Options)
    (pre post : List Event) (ctx : Context) (req : Request)
    (h : runWithOptions env opts = pre ++ Event.transportCall ctx req :: post) :
    ctx = { timeout := timeSecond } ∧
    pre = [Event.newContext timeSecond] ∧
    post.head? = some Event.cancelContext ∧
    req.Method = ((getMethodSpec env opts.ROpts).2).MethodName := by
  rcases runWithOptions_trace_shape env opts with ⟨m, hm⟩ | ⟨bytes, rest, htr, hrest⟩
  · rw [hm] at h
    rcases pre with _ | ⟨a, pre⟩ <;> simp_all
  · rw [htr] at h
    have hnotin : ∀ c q, ¬ Event.transportCall c q ∈ rest := by
      rcases hrest with ⟨m, hm⟩ | ⟨s, method, r, hm⟩ <;> subst hm <;> simp
    obtain ⟨hctx, hreq, hpre, hpost⟩ :=
      call_event_position (Event.newContext timeSecond) { timeout := timeSecond }
        { Method := ((getMethodSpec env opts.ROpts).2).MethodName, Body := bytes }
        rest pre post ctx req hnotin (by simp) h
    refine ⟨hctx, hpre, ?_, ?_⟩
    · rw [hpost]
      rfl
    · rw [hreq]

/-- Claim C1: with the health flag set and a non-empty method name,
getMethodSpec fails with the configuration error
"cannot specify method name and use --health", leaving the options
unchanged, and runWithOptions reports exactly that one fatal message and
nothing else: the trace holds no transport call, and — the environment
being arbitrary and the trace fixed — neither the transport constructor
nor any network operation influences the outcome. -/
theorem c1_health_and_method (env : Env) (opts : Options)
    (hh : opts.ROpts.Health = true) (hm : opts.ROpts.MethodName ≠ "") :
    getMethodSpec env opts.ROpts = (.error errHealthAndMethod, opts.ROpts) ∧
    runWithOptions env opts =
      [.fatalf ("Failed while parsing input: " ++ errHealthAndMethod ++ "\n")] := by
  have h1 : getMethodSpec env opts.ROpts = (.error errHealthAndMethod, opts.ROpts) := by
    simp [getMethodSpec, hh, hm]
  exact ⟨h1, by simp [runWithOptions, h1]⟩

/-- Witness for C1 at a concrete health-plus-method configuration. -/
theorem c1_health_and_method_witness :
    getMethodSpec okEnv healthBadOpts.ROpts = (.error errHealthAndMethod, healthBadOpts.ROpts) ∧
    runWithOptions okEnv healthBadOpts =
      [.fatalf ("Failed while parsing input: " ++ errHealthAndMethod ++ "\n")] :=
  c1_health_and_method okEnv healthBadOpts rfl (by decide)

/-- Claim C4: with the health flag set and an empty method name,
getMethodSpec succeeds with the fixed synthetic health spec for every
options value — in particular whatever the Thrift file path is — and the
result is unchanged under any replacement of the IDL parser and the
file-existence check, so no IDL file is read or required on this path. -/
theorem c4_health_path (env : Env) (opts : RequestOptions)
    (hh : opts.Health = true) (hm : opts.MethodName = "") :
    getMethodSpec env opts =
      (.ok env.healthSpec, { opts with MethodName := env.healthName }) ∧
    (∀ p fm, getMethodSpec { env with parseThrift := p, isFileMissing := fm } opts =
      getMethodSpec env opts) := by
  constructor
  · simp [getMethodSpec, hh, hm]
  · intro p fm
    simp [getMethodSpec, hh, hm]

/-- Witness for C4 at the concrete health options (with a Thrift path
supplied, which is ignored). -/
theorem c4_health_path_witness :
    getMethodSpec okEnv { healthROpts with ThriftFile := "ignored.thrift" } =
      (.ok okEnv.healthSpec,
        { healthROpts with
          ThriftFile := "ignored.thrift"
          MethodName := okEnv.healthName }) :=
  (c4_health_path okEnv { healthROpts with ThriftFile := "ignored.thrift" } rfl rfl).1

/-- Claim C5: without the health flag, getMethodSpec rejects an empty
Thrift path with "specify a Thrift file using --thrift" and a non-empty
path whose file is missing with an error quoting that path; in both
cases the result is unchanged under any replacement of the IDL parser,
so no parsing is attempted. -/
theorem c5_thrift_file_checks (env : Env) (opts : RequestOptions)
    (hh : opts.Health = false) :
    (opts.ThriftFile = "" →
      getMethodSpec env opts = (.error "specify a Thrift file using --thrift", opts)) ∧
    (opts.ThriftFile ≠ "" → env.isFileMissing opts.ThriftFile = true →
      getMethodSpec env opts =
        (.error ("cannot find Thrift file: " ++ goQuote opts.ThriftFile), opts)) ∧
    ((opts.ThriftFile = "" ∨ env.isFileMissing opts.ThriftFile = true) →
      ∀ p, getMethodSpec { env with parseThrift := p } opts = getMethodSpec env opts) := by
  refine ⟨fun he => ?_, fun hne hmiss => ?_, fun hor p => ?_⟩
  · simp [getMethodSpec, hh, he]
  · simp [getMethodSpec, hh, hne, hmiss]
  · rcases hor with he | hmiss
    · simp [getMethodSpec, hh, he]
    · by_cases he : opts.ThriftFile = ""
      · simp [getMethodSpec, hh, he]
      · simp [getMethodSpec, hh, he, hmiss]

/-- Witness for C5: a missing concrete Thrift file is rejected with the
quoted path. -/
theorem c5_thrift_file_checks_witness :
    getMethodSpec missingFileEnv sampleROpts =
      (.error ("cannot find Thrift file: " ++ goQuote sampleROpts.ThriftFile),
        sampleROpts) :=
  (c5_thrift_file_checks missingFileEnv sampleROpts rfl).2.1 (by decide) rfl

/-- Claim C9: fromPositional copies args[index] into the target exactly
when the index is in bounds, the argument is non-empty and the target is
empty; a non-empty target, an out-of-range index, or an empty argument
each leave the target unchanged, and the list is only ever accessed at a
proven in-bounds index. -/
theorem c9_from_positional (args : List String) (index : Nat) (s : String) :
    (∀ h : index < args.length, args.get ⟨index, h⟩ ≠ "" → s = "" →
      fromPositional args index s = args.get ⟨index, h⟩) ∧
    (s ≠ "" → fromPositional args index s = s) ∧
    (args.length ≤ index → fromPositional args index s = s) ∧
    (∀ h : index < args.length, args.get ⟨index, h⟩ = "" →
      fromPositional args index s = s) := by
  refine ⟨fun h hne hs => ?_, fun hs => ?_, fun hle => ?_, fun h ha => ?_⟩
  · rw [fromPositional, dif_neg (Nat.not_le_of_lt h)]
    exact if_pos ⟨hne, hs⟩
  · rw [fromPositional]
    split
    · rfl
    · simp [hs]
  · rw [fromPositional, dif_pos hle]
  · rw [fromPositional, dif_neg (Nat.not_le_of_lt h)]
    exact if_neg (fun hcon => hcon.1 ha)

/-- Witness for C9: a positional service name fills an empty target, and
a non-empty target is preserved. -/
theorem c9_from_positional_witness :
    fromPositional ["svc", "method"] 0 "" = "svc" ∧
    fromPositional ["svc", "method"] 1 "set" = "set" ∧
    fromPositional ["svc"] 2 "" = "" :=
  ⟨(c9_from_positional ["svc", "method"] 0 "").1 (by decide) (by decide) rfl,
   (c9_from_positional ["svc", "method"] 1 "set").2.1 (by decide),
   (c9_from_positional ["svc"] 2 "").2.2.1 (by decide)⟩

/-- Claim C2: whichever of getMethodSpec, getTransport or getRequest
fails, runWithOptions produces exactly one fatal report carrying that
error and nothing else — in particular the trace holds no transport-call
event, so no network call is attempted after a pre-flight error. -/
theorem c2_preflight_fatal (env : Env) (opts : Options) :
    (∀ e ropts, getMethodSpec env opts.ROpts = (.error e, ropts) →
      runWithOptions env opts =
        [Event.fatalf ("Failed while parsing input: " ++ e ++ "\n")]) ∧
    (∀ method ropts e, getMethodSpec env opts.ROpts = (.ok method, ropts) →
      env.getTransport opts.TOpts = .error e →
      runWithOptions env opts =
        [Event.fatalf ("Failed while parsing options: " ++ e ++ "\n")]) ∧
    (∀ method ropts t e, getMethodSpec env opts.ROpts = (.ok method, ropts) →
      env.getTransport opts.TOpts = .ok t →
      getRequest env ropts method = .error e →
      runWithOptions env opts =
        [Event.fatalf ("Failed while parsing request input: " ++ e ++ "\n")]) := by
  refine ⟨fun e ropts hms => ?_, fun method ropts e hms ht => ?_,
    fun method ropts t e hms ht hr => ?_⟩
  · simp [runWithOptions, hms]
  · simp [runWithOptions, hms, ht]
  · simp [runWithOptions, hms, ht, hr]

/-- Witness for C2: a failing getMethodSpec yields the single fatal
report. -/
theorem c2_preflight_fatal_witness :
    runWithOptions okEnv healthBadOpts =
      [Event.fatalf ("Failed while parsing input: " ++ errHealthAndMethod ++ "\n")] :=
  (c2_preflight_fatal okEnv healthBadOpts).1 errHealthAndMethod healthBadROpts rfl

/-- Claim C3: on the non-health one-shot path, the options come back from
getMethodSpec unchanged; the request built by getRequest carries exactly
the user-supplied method name and exactly the encoded bytes; the
transport call runs under the one-second context; a failing call ends in
a fatal report with no decode, print or benchmark, while a successful
call is decoded against the method spec, printed and handed to the
benchmark — each step appearing in the trace only after the previous one
succeeded. -/
theorem c3_dispatch_sequence (env : Env) (opts : Options) (method : FunctionSpec)
    (ropts : RequestOptions) (t : Transport) (ri : RequestInput) (bytes : List Nat)
    (hh : opts.ROpts.Health = false)
    (hms : getMethodSpec env opts.ROpts = (.ok method, ropts))
    (ht : env.getTransport opts.TOpts = .ok t)
    (hin : env.getRequestInput opts.ROpts = .ok ri)
    (hby : env.requestToBytes method ri = .ok bytes) :
    ropts = opts.ROpts ∧
    getRequest env opts.ROpts method =
      .ok { Method := opts.ROpts.MethodName, Body := bytes } ∧
    (∀ e, env.call t { timeout := timeSecond }
        { Method := opts.ROpts.MethodName, Body := bytes } = .error e →
      runWithOptions env opts =
        [Event.newContext timeSecond,
         Event.transportCall { timeout := timeSecond }
           { Method := opts.ROpts.MethodName, Body := bytes },
         Event.cancelContext,
         Event.fatalf ("Failed while making call: " ++ e ++ "\n")]) ∧
    (∀ resp rmap bs,
      env.call t { timeout := timeSecond }
        { Method := opts.ROpts.MethodName, Body := bytes } = .ok resp →
      env.responseBytesToMap method resp.Body = .ok rmap →
      env.marshalIndent rmap "" "  " = .ok bs →
      runWithOptions env opts =
        [Event.newContext timeSecond,
         Event.transportCall { timeout := timeSecond }
           { Method := opts.ROpts.MethodName, Body := bytes },
         Event.cancelContext,
         Event.printf (bs ++ "\n\n"),
         Event.benchmark method { Method := opts.ROpts.MethodName, Body := bytes }]) := by
  have hsnd : ropts = opts.ROpts := by
    have h := getMethodSpec_snd env opts.ROpts
    rw [hms] at h
    simpa [hh] using h
  subst hsnd
  refine ⟨rfl, by simp [getRequest, hin, hby], fun e hc => ?_, fun resp rmap bs hc hd hj => ?_⟩
  · simp [runWithOptions, makeRequest, hms, ht, getRequest, hin, hby, hc]
  · simp [runWithOptions, makeRequest, hms, ht, getRequest, hin, hby, hc, hd, hj]

/-- Witness for C3: the full successful one-shot trace on concrete
options against the all-succeeding environment. -/
theorem c3_dispatch_sequence_witness :
    runWithOptions okEnv sampleOpts =
      [Event.newContext timeSecond,
       Event.transportCall { timeout := timeSecond }
         { Method := "Simple::foo", Body := [1, 2, 3] },
       Event.cancelContext,
       Event.printf ("response" ++ "\n\n"),
       Event.benchmark { id := 7 } { Method := "Simple::foo", Body := [1, 2, 3] }] :=
  (c3_dispatch_sequence okEnv sampleOpts { id := 7 } sampleROpts { id := 0 } { id := 0 }
    [1, 2, 3] rfl rfl rfl rfl rfl).2.2.2 { Body := [4, 5] } { id := 0 } "response"
    rfl rfl rfl

/-- Claim C6: wherever a transport call appears in a runWithOptions
trace, its context carries the fixed one-second deadline, the very next
event is the cancellation of that context, and the event just before it
is the creation of the context with that same deadline. -/
theorem c6_per_call_deadline (env : Env) (opts : Options) (pre post : List Event)
    (ctx : Context) (req : Request)
    (h : runWithOptions env opts = pre ++ Event.transportCall ctx req :: post) :
    ctx.timeout = timeSecond ∧ post.head? = some Event.cancelContext ∧
    pre = [Event.newContext timeSecond] := by
  obtain ⟨hctx, hpre, hpost, -⟩ := runWithOptions_call_inversion env opts pre post ctx req h
  exact ⟨by rw [hctx], hpost, hpre⟩

/-- Witness for C6 at the concrete successful trace. -/
theorem c6_per_call_deadline_witness :
    ({ timeout := timeSecond } : Context).timeout = timeSecond ∧
    ([Event.cancelContext, Event.printf ("response" ++ "\n\n"),
        Event.benchmark { id := 7 } { Method := "Simple::foo", Body := [1, 2, 3] }] :
      List Event).head? = some Event.cancelContext ∧
    ([Event.newContext timeSecond] : List Event) = [Event.newContext timeSecond] :=
  c6_per_call_deadline okEnv sampleOpts [Event.newContext timeSecond]
    [Event.cancelContext, Event.printf ("response" ++ "\n\n"),
      Event.benchmark { id := 7 } { Method := "Simple::foo", Body := [1, 2, 3] }]
    { timeout := timeSecond } { Method := "Simple::foo", Body := [1, 2, 3] } (by rfl)

/-- Counterexample for C7 as stated: on the successful health path,
getMethodSpec does change the options — the method name field differs
after the call. -/
theorem c7_frame_counterexample :
    (getMethodSpec okEnv healthROpts).2 ≠ healthROpts := by
  decide

/-- Claim C7 (amended): resolving a method descriptor leaves the options
unchanged on every path except the successful health path, where the one
change is that the method name is set to the synthetic health name. -/
theorem c7_amended_frame (env : Env) (opts : RequestOptions) :
    ((opts.Health = true ∧ opts.MethodName = "") →
      (getMethodSpec env opts).2 = { opts with MethodName := env.healthName }) ∧
    (¬(opts.Health = true ∧ opts.MethodName = "") →
      (getMethodSpec env opts).2 = opts) := by
  have h := getMethodSpec_snd env opts
  exact ⟨fun hc => by rw [h, if_pos hc], fun hc => by rw [h, if_neg hc]⟩

/-- Witness for C7 (amended): a non-health invocation leaves the options
untouched. -/
theorem c7_amended_frame_witness :
    (getMethodSpec okEnv sampleROpts).2 = sampleROpts :=
  (c7_amended_frame okEnv sampleROpts).2 (by decide)

/-- Claim C8: when the call succeeds and the response decodes, the map is
marshalled with empty prefix and two-space indent and printed, and the
print event strictly precedes the benchmark event at the end of the
trace. -/
theorem c8_print_before_benchmark (env : Env) (opts : Options)
    (method : FunctionSpec) (ropts : RequestOptions) (t : Transport) (req : Request)
    (resp : Response) (rmap : ResponseMap) (bs : String)
    (hms : getMethodSpec env opts.ROpts = (.ok method, ropts))
    (ht : env.getTransport opts.TOpts = .ok t)
    (hr : getRequest env ropts method = .ok req)
    (hc : env.call t { timeout := timeSecond } req = .ok resp)
    (hd : env.responseBytesToMap method resp.Body = .ok rmap)
    (hj : env.marshalIndent rmap "" "  " = .ok bs) :
    runWithOptions env opts =
      [Event.newContext timeSecond, Event.transportCall { timeout := timeSecond } req,
       Event.cancelContext, Event.printf (bs ++ "\n\n"),
       Event.benchmark method req] := by
  simp [runWithOptions, makeRequest, hms, ht, hr, hc, hd, hj]

/-- Witness for C8 with a distinct marshalled body. -/
theorem c8_print_before_benchmark_witness :
    runWithOptions prettyEnv sampleOpts =
      [Event.newContext timeSecond,
       Event.transportCall { timeout := timeSecond }
         { Method := "Simple::foo", Body := [1, 2, 3] },
       Event.cancelContext, Event.printf ("pretty" ++ "\n\n"),
       Event.benchmark { id := 7 } { Method := "Simple::foo", Body := [1, 2, 3] }] :=
  c8_print_before_benchmark prettyEnv sampleOpts { id := 7 } sampleROpts { id := 0 }
    { Method := "Simple::foo", Body := [1, 2, 3] } { Body := [4, 5] } { id := 0 }
    "pretty" rfl rfl rfl rfl rfl rfl

/-- Claim C10: the successful health path is the only one on which
getMethodSpec writes to the options, and there it sets the method name
to the synthetic health name — so any transport call later issued by
runWithOptions carries that name as its wire method. -/
theorem c10_health_sets_method_name (env : Env) (opts : Options) :
    ((opts.ROpts.Health = true ∧ opts.ROpts.MethodName = "") →
      (getMethodSpec env opts.ROpts).2 =
        { opts.ROpts with MethodName := env.healthName } ∧
      (∀ pre post ctx req,
        runWithOptions env opts = pre ++ Event.transportCall ctx req :: post →
        req.Method = env.healthName)) ∧
    (¬(opts.ROpts.Health = true ∧ opts.ROpts.MethodName = "") →
      (getMethodSpec env opts.ROpts).2 = opts.ROpts) := by
  have h := getMethodSpec_snd env opts.ROpts
  constructor
  · intro hc
    refine ⟨by rw [h, if_pos hc], fun pre post ctx req hrun => ?_⟩
    have h4 := (runWithOptions_call_inversion env opts pre post ctx req hrun).2.2.2
    rw [h4, h, if_pos hc]
  · intro hc
    rw [h, if_neg hc]

/-- Witness for C10 at the concrete health options. -/
theorem c10_health_sets_method_name_witness :
    (getMethodSpec okEnv healthOpts.ROpts).2 =
      { healthOpts.ROpts with MethodName := okEnv.healthName } :=
  ((c10_health_sets_method_name okEnv healthOpts).1 ⟨rfl, rfl⟩).1

end Yab
